import Mathlib

/-!
Verification development for the monte RPC transport (Go sources
conn.go and the server file). The Go code is shallowly embedded:

* the connection engine of conn.go (write queue, write loop, read loop,
  sequence counter) is modelled by executable functions over an explicit
  state record plus a small-step relation capturing the concurrent
  interleavings of enqueuers, the writer loop and the Handle supervisor;
* the server file (admission control, accept-error classification,
  shutdown) is modelled the same way;
* Go machine integers are Nat/Int with explicit wrap where the source
  wraps (the uint32 sequence counter); fallible operations return Except.

Ghost fields (accepted, wire, released) record histories needed to state
ordering properties; they do not influence any computed branch.
-/

namespace Monte

/-! ## conn.go: pending writes and the connection engine state -/

/-- Embedding of the pendingWrite record (conn.go lines 256-260): the queued
buffer and the wait flag; the sync.WaitGroup completion signal is modelled by
the release history below. -/
structure PendingWrite where
  buf : List Nat
  wait : Bool
deriving DecidableEq

/-- How a drained pendingWrite is released (conn.go lines 202-206 and 248-252):
a waiting caller is signalled via wg.Done, a fire-and-forget buffer is returned
to the pool. -/
inductive ReleaseAction where
  | signalWaiter (pw : PendingWrite)
  | toPool (pw : PendingWrite)
deriving DecidableEq

/-- The pendingWrite carried by a release action. -/
def ReleaseAction.pw : ReleaseAction → PendingWrite
  | .signalWaiter p => p
  | .toPool p => p

/-- The release performed for one drained pendingWrite: wg.Done when wait is
set, pool return otherwise (conn.go lines 202-206). -/
def releaseOf (p : PendingWrite) : ReleaseAction :=
  if p.wait then .signalWaiter p else .toPool p

/-- State of one Conn's writer machinery (conn.go lines 23-31) together with
ghost histories: accepted records every pendingWrite accepted into the queue in
order, wire records every buffer handed to conn.Write in order, released
records every release performed, writeErr is the writeLoop's sticky local err,
and writerExited records that the writeLoop has returned. -/
structure EngineState where
  writerQueue : List PendingWrite := []
  writerDone : Bool := false
  signals : Nat := 0
  accepted : List PendingWrite := []
  wire : List (List Nat) := []
  released : List ReleaseAction := []
  writeErr : Bool := false
  writerExited : Bool := false
deriving DecidableEq

/-- The zero value of the engine state (fresh Conn). -/
def initEngine : EngineState := {}

/-- Embedding of acquirePendingWrite (conn.go lines 264-273), ignoring pooling
of the record itself. -/
def acquirePendingWrite (buf : List Nat) (wait : Bool) : PendingWrite :=
  { buf := buf, wait := wait }

/-- Embedding of Conn.preparePendingWrite (conn.go lines 107-125): under the
lock, reject with the shutdown error when writerDone is set; otherwise append
one pendingWrite to the queue and signal the writer condition variable. -/
def preparePendingWrite (c : EngineState) (buf : List Nat) (wait : Bool) :
    Except String (EngineState × PendingWrite) :=
  if c.writerDone then
    .error "node is shut down"
  else
    let pw := acquirePendingWrite buf wait
    .ok ({ c with
            writerQueue := c.writerQueue ++ [pw],
            signals := c.signals + 1,
            accepted := c.accepted ++ [pw] }, pw)

/-- Return value of Conn.Write (conn.go lines 88-98): the error of
preparePendingWrite when the enqueue is rejected; otherwise the caller blocks
on pw.wg.Wait() and then Write returns nil unconditionally (lines 96-97). -/
def WriteReturn (c : EngineState) (buf : List Nat) : Except String Unit :=
  match preparePendingWrite c buf true with
  | .error e => .error e
  | .ok _ => .ok ()

/-- Return value of Conn.WriteNoWait (conn.go lines 100-105). -/
def WriteNoWaitReturn (c : EngineState) (buf : List Nat) : Except String Unit :=
  match preparePendingWrite c buf false with
  | .error e => .error e
  | .ok _ => .ok ()

/-! ## conn.go: the writeLoop drain -/

/-- One pass of the writeLoop body's for-loop (conn.go lines 198-207) over a
drained queue snapshot. res lists the outcomes of successive conn.Write calls
(true = success); err is the loop-local sticky error on entry. Returns the
buffers handed to conn.Write in order, the releases performed in order, and
the sticky error on exit. conn.Write is attempted only while err is nil; every
pendingWrite is released right after its slot regardless of outcome. -/
def drainQueue : List Bool → List PendingWrite → Bool →
    List (List Nat) × List ReleaseAction × Bool
  | _, [], err => ([], [], err)
  | res, pw :: rest, err =>
    if err then
      let out := drainQueue res rest true
      (out.1, releaseOf pw :: out.2.1, out.2.2)
    else
      let ok := res.headD true
      let out := drainQueue res.tail rest (!ok)
      (pw.buf :: out.1, releaseOf pw :: out.2.1, out.2.2)

/-- One full iteration of writeLoop past its condition wait (conn.go lines
186-216): atomically swap out the whole queue under the lock, process it with
drainQueue, then flush once when no write error occurred (flushOk is the Flush
outcome); on any error the loop breaks, so writerExited follows the final
sticky error. -/
def drainStep (c : EngineState) (res : List Bool) (flushOk : Bool) : EngineState :=
  let out := drainQueue res c.writerQueue c.writeErr
  let errAfter := if out.2.2 then true else !flushOk
  { c with
      writerQueue := [],
      wire := c.wire ++ out.1,
      released := c.released ++ out.2.1,
      writeErr := errAfter,
      writerExited := errAfter }

/-- Embedding of Conn.clearPendingWrites (conn.go lines 243-254): release
every still-queued pendingWrite (signal or pool, no write attempt). -/
def clearPendingWrites (c : EngineState) : EngineState :=
  { c with
      writerQueue := [],
      released := c.released ++ c.writerQueue.map releaseOf }

/-- The three wake-ups of Handle's select (conn.go lines 154-175): external
cancellation via the done channel, writeLoop returning an error, readLoop
returning an error. -/
inductive HandleWake where
  | cancelled
  | writerErrored
  | readerErrored
deriving DecidableEq

/-- Effect of each Handle select branch on the engine state (conn.go lines
154-175): the cancellation and reader-error branches set writerDone under the
lock and signal the writer condition variable; the writer-error branch does
neither. -/
def handleWake : HandleWake → EngineState → EngineState
  | .cancelled, c => { c with writerDone := true, signals := c.signals + 1 }
  | .writerErrored, c => c
  | .readerErrored, c => { c with writerDone := true, signals := c.signals + 1 }

/-- Small-step relation over the engine state: interleavings of enqueuing
callers (preparePendingWrite), writeLoop iterations (drain while the queue is
nonempty, exit once writerDone holds with an empty queue, conn.go lines
185-196), the Handle select branches, and the final clearPendingWrites. -/
inductive EngineStep : EngineState → EngineState → Prop
  | enqueue (c : EngineState) (buf : List Nat) (wait : Bool)
      (c' : EngineState) (pw : PendingWrite)
      (h : preparePendingWrite c buf wait = .ok (c', pw)) :
      EngineStep c c'
  | drain (c : EngineState) (res : List Bool) (flushOk : Bool)
      (halive : c.writerExited = false) (herr : c.writeErr = false)
      (hq : c.writerQueue ≠ []) :
      EngineStep c (drainStep c res flushOk)
  | writerExit (c : EngineState)
      (halive : c.writerExited = false)
      (hdone : c.writerDone = true) (hempty : c.writerQueue = []) :
      EngineStep c { c with writerExited := true }
  | wakeHandle (c : EngineState) (w : HandleWake) :
      EngineStep c (handleWake w c)
  | clear (c : EngineState) (hexited : c.writerExited = true) :
      EngineStep c (clearPendingWrites c)

/-- Engine states reachable from a fresh Conn. -/
def EngineReachable (c : EngineState) : Prop :=
  Relation.ReflTransGen EngineStep initEngine c

/-! ## conn.go: sequence counter and read loop -/

/-- Modulus of Go's uint32 arithmetic. -/
def uint32Mod : Nat := 4294967296

/-- Embedding of Conn.next (conn.go lines 127-136): increment the uint32
sequence counter with wraparound; when the increment wraps to 0 the counter is
set to 1. The Go code returns the updated counter, so one Nat models both the
stored field and the returned value. -/
def next (seq : Nat) : Nat :=
  if (seq + 1) % uint32Mod = 0 then 1 else (seq + 1) % uint32Mod

/-- Lengths of the buffer passed to successive conn.Read calls in Conn.readLoop
(conn.go lines 222-241): the buffer starts at the configured read-buffer size
and is re-sliced to buf[:n] after every successful read (line 235). rs lists
the byte counts the stream would yield; a read into a buffer of length l
returns min r l bytes (the io.Reader contract bounds n by the buffer length).
Element i is the length of the buffer passed to read i; the final element is
the length the next read would receive. -/
def readLoopLens (len : Nat) : List Nat → List Nat
  | [] => [len]
  | r :: rs => len :: readLoopLens (min r len) rs

/-- Discriminator for Except results. -/
def exceptIsOk {ε α : Type} : Except ε α → Bool
  | .ok _ => true
  | .error _ => false

/-! ## Server (admission control, accept loop, shutdown) -/

/-- Dynamic server state: occupied counts slots held in the sem channel,
active counts running per-connection tasks (the WaitGroup counter), doneClosed
records whether the done channel has been closed, rejected counts accepted
streams closed without being handled (ghost). -/
structure ServerState where
  occupied : Nat := 0
  active : Nat := 0
  doneClosed : Bool := false
  rejected : Nat := 0
deriving DecidableEq

/-- Result relation of Server.serverAvailable (server file lines 75-94) on the
semaphore occupancy: receiving from the closed done channel or the
MaxConnWaitTimeout timer firing yields false and leaves the occupancy alone; a
send on the sem channel (buffered with capacity cap) succeeds exactly when the
occupancy is below cap, reserves the slot and yields true. The duplicate cases
of the two selects are collapsed; select nondeterminism is the relation's
nondeterminism. -/
inductive ServerAvailable (cap : Nat) (doneClosed : Bool) : Nat → Bool × Nat → Prop
  | recvDone (o : Nat) (h : doneClosed = true) : ServerAvailable cap doneClosed o (false, o)
  | sendSem (o : Nat) (h : o < cap) : ServerAvailable cap doneClosed o (true, o + 1)
  | waitTimeout (o : Nat) : ServerAvailable cap doneClosed o (false, o)

/-- Exit paths of Server.client (server file lines 108-133): deadline arming
failure, handshake failure, deadline clearing failure, or the handler running
to completion. The deferred slot release runs on every one of them. -/
inductive ClientOutcome where
  | deadlineArmErr
  | handshakeErr
  | deadlineClearErr
  | handled (err : Bool)
deriving DecidableEq

/-- Small-step relation of the Serve/client/Shutdown machinery (server file
lines 108-181): admitConn reserves a slot via serverAvailable and spawns a task
(wg.Add then go client); reject closes the just-accepted stream unhandled when
serverAvailable fails; clientExit is one task ending with any outcome,
releasing its slot unconditionally via the defer (line 109) and dropping the
WaitGroup counter; shutdownSignal is the close of the done channel, legal only
while it is not yet closed (a second close panics). -/
inductive ServerStep (cap : Nat) : ServerState → ServerState → Prop
  | admitConn (s : ServerState) (o' : Nat)
      (h : ServerAvailable cap s.doneClosed s.occupied (true, o')) :
      ServerStep cap s { s with occupied := o', active := s.active + 1 }
  | reject (s : ServerState)
      (h : ServerAvailable cap s.doneClosed s.occupied (false, s.occupied)) :
      ServerStep cap s { s with rejected := s.rejected + 1 }
  | clientExit (s : ServerState) (outcome : ClientOutcome) (h : 0 < s.active) :
      ServerStep cap s { s with occupied := s.occupied - 1, active := s.active - 1 }
  | shutdownSignal (s : ServerState) (h : s.doneClosed = false) :
      ServerStep cap s { s with doneClosed := true }

/-- Server states reachable from a fresh server with admission capacity cap. -/
def ServerReachable (cap : Nat) (s : ServerState) : Prop :=
  Relation.ReflTransGen (ServerStep cap) {} s

/-- Go runtime semantics of close(ch): closing an already-closed channel
panics with this message. -/
def closeChannel (alreadyClosed : Bool) : Except String Unit :=
  if alreadyClosed then .error "close of closed channel" else .ok ()

/-- sync.WaitGroup.Wait: completes exactly when the counter is zero. -/
def wgWait (counter : Nat) : Option Unit :=
  if counter = 0 then some () else none

/-- Embedding of Server.Shutdown (server file lines 176-181): close the done
channel (panicking when it is already closed), then wg.Wait. The Bool records
whether the wg.Wait completes now, i.e. whether every admitted task has
exited. -/
def Shutdown (s : ServerState) : Except String (ServerState × Bool) :=
  match closeChannel s.doneClosed with
  | .error e => .error e
  | .ok _ => .ok ({ s with doneClosed := true }, (wgWait s.active).isSome)

/-! ## Server accept-error handling -/

/-- Classification of the error returned by ln.Accept() as tested by
Server.Serve (server file lines 140-159): eof is an error matching io.EOF via
errors.Is; netOp is a *net.OpError carrying its Err.Error() string and its
Temporary() answer; other is any error that errors.As fails to match to
*net.OpError. -/
inductive AcceptError where
  | eof
  | netOp (msg : String) (temporary : Bool)
  | other
deriving DecidableEq

/-- What Serve does after an accept error: return nil, return the error, or
loop back to Accept. -/
inductive ServeDecision where
  | exitOk
  | exitErr
  | retryAccept
deriving DecidableEq

/-- Backoff duration used by Serve for temporary accept errors (server file
line 154), in milliseconds. -/
def serveBackoffMillis : Nat := 100

/-- Embedding of Server.wait (server file lines 96-106): true when the timer
fires after the given duration, false when the done channel is signalled
during the wait. -/
def wait (durationMillis : Nat) (doneArrived : Bool) : Bool :=
  !doneArrived

/-- The accept-error branch of Server.Serve (server file lines 140-159), in
source order: io.EOF returns nil; an error that is not a *net.OpError is
returned; the "use of closed network connection" message returns nil; a
non-temporary *net.OpError is returned; a temporary one waits 100 ms, and the
loop retries unless the done channel was signalled during the wait, in which
case Serve returns nil. -/
def serveOnAcceptError (e : AcceptError) (doneArrived : Bool) : ServeDecision :=
  match e with
  | .eof => .exitOk
  | .other => .exitErr
  | .netOp msg temporary =>
    if msg = "use of closed network connection" then .exitOk
    else if !temporary then .exitErr
    else if wait serveBackoffMillis doneArrived then .retryAccept
    else .exitOk

/-! ## Configuration getters and defaults -/

/-- server file line 13. -/
def DefaultMaxServerConns : Int := 1024

/-- server file line 15 (3 * time.Second in nanoseconds). -/
def DefaultHandshakeTimeout : Int := 3 * 1000000000

/-- server file line 16 (3 * time.Second in nanoseconds). -/
def DefaultMaxConnWaitTimeout : Int := 3 * 1000000000

/-- Server config fields as set by the user; Go zero values by default. -/
structure ServerConfig where
  maxConns : Int := 0
  handshakeTimeout : Int := 0
  maxConnWaitTimeout : Int := 0
deriving DecidableEq

/-- Server.getMaxConns (server file lines 54-59). -/
def getMaxConns (s : ServerConfig) : Int :=
  if s.maxConns ≤ 0 then DefaultMaxServerConns else s.maxConns

/-- Server.getHandshakeTimeout (server file lines 61-66): note the strict
comparison — only a negative setting falls back to the default. -/
def getHandshakeTimeout (s : ServerConfig) : Int :=
  if s.handshakeTimeout < 0 then DefaultHandshakeTimeout else s.handshakeTimeout

/-- Server.getMaxConnWaitTimeout (server file lines 68-73). -/
def getMaxConnWaitTimeout (s : ServerConfig) : Int :=
  if s.maxConnWaitTimeout ≤ 0 then DefaultMaxConnWaitTimeout else s.maxConnWaitTimeout

/-- Server.client (server file lines 111-118): the handshake deadline is
armed on the raw stream exactly when the effective timeout is nonzero. -/
def armsHandshakeDeadline (timeout : Int) : Bool :=
  timeout != 0

/-- Conn.getMaxConns (conn.go lines 53-58); DefaultMaxClientConns is declared
outside the provided sources, so the default is a parameter. -/
def getMaxClientConns (cfg dflt : Int) : Int :=
  if cfg ≤ 0 then dflt else cfg

/-- Conn.getReadBufferSize (conn.go lines 60-65); default parameterised as
DefaultReadBufferSize is declared outside the provided sources. -/
def getReadBufferSize (cfg dflt : Int) : Int :=
  if cfg ≤ 0 then dflt else cfg

/-- Conn.getWriteBufferSize (conn.go lines 67-72). -/
def getWriteBufferSize (cfg dflt : Int) : Int :=
  if cfg ≤ 0 then dflt else cfg

/-- Conn.getReadTimeout (conn.go lines 74-79). -/
def getReadTimeout (cfg dflt : Int) : Int :=
  if cfg ≤ 0 then dflt else cfg

/-- Conn.getWriteTimeout (conn.go lines 81-86). -/
def getWriteTimeout (cfg dflt : Int) : Int :=
  if cfg ≤ 0 then dflt else cfg

/-! ## Concrete example states for the engine runs -/

/-- Example pending write used in concrete runs: a waiting Write of buffer
[7]. -/
def exPW : PendingWrite := { buf := [7], wait := true }

/-- Engine state right after one successful Write enqueue on a fresh engine;
definitionally the state preparePendingWrite produces from initEngine. -/
def exEnq : EngineState := { writerQueue := [exPW], signals := 1, accepted := [exPW] }

/-! ## Invariants -/

/-- Invariant tying the engine's ghost histories together: releases plus the
still-pending queue account for every accepted pendingWrite in order; the wire
is a prefix of the released buffers (equal while no write error occurred); the
writer exits only after shutdown was requested or a write error; a writer that
exited cleanly leaves an empty queue behind. -/
def EngineInv (c : EngineState) : Prop :=
  c.released.map ReleaseAction.pw ++ c.writerQueue = c.accepted ∧
  c.wire <+: (c.released.map ReleaseAction.pw).map PendingWrite.buf ∧
  (c.writeErr = false → c.wire = (c.released.map ReleaseAction.pw).map PendingWrite.buf) ∧
  (c.writerExited = true → c.writerDone = true ∨ c.writeErr = true) ∧
  (c.writerExited = true → c.writeErr = false → c.writerQueue = [])

/-- Admission invariant: the semaphore occupancy tracks the number of running
tasks and never exceeds the capacity. -/
def ServerInv (cap : Nat) (s : ServerState) : Prop :=
  s.occupied = s.active ∧ s.active ≤ cap

/-! ## drainQueue lemmas -/

theorem pw_releaseOf (p : PendingWrite) : (releaseOf p).pw = p := by
  unfold releaseOf
  by_cases h : p.wait <;> simp [h, ReleaseAction.pw]

theorem drainQueue_releases (res : List Bool) (q : List PendingWrite) (err : Bool) :
    (drainQueue res q err).2.1 = q.map releaseOf := by
  induction q generalizing res err with
  | nil => simp [drainQueue]
  | cons pw rest ih => cases err <;> simp [drainQueue, ih]

theorem drainQueue_sticky (res : List Bool) (q : List PendingWrite) :
    (drainQueue res q true).1 = [] := by
  induction q generalizing res with
  | nil => simp [drainQueue]
  | cons pw rest ih => simp [drainQueue, ih]

theorem drainQueue_err_mono (res : List Bool) (q : List PendingWrite) :
    (drainQueue res q true).2.2 = true := by
  induction q generalizing res with
  | nil => simp [drainQueue]
  | cons pw rest ih => simp [drainQueue, ih]

theorem isPrefix_cons {α : Type} (a : α) {l₁ l₂ : List α} (h : l₁ <+: l₂) :
    a :: l₁ <+: a :: l₂ := by
  obtain ⟨t, ht⟩ := h
  exact ⟨t, by simp [ht]⟩

theorem drainQueue_attempts_front (res : List Bool) (q : List PendingWrite) (err : Bool) :
    (drainQueue res q err).1 <+: q.map PendingWrite.buf := by
  induction q generalizing res err with
  | nil => simp [drainQueue]
  | cons pw rest ih =>
    cases err with
    | true =>
      simp only [drainQueue, if_pos]
      exact (drainQueue_sticky res rest) ▸ List.nil_prefix
    | false =>
      simp only [drainQueue, Bool.false_eq_true, if_neg, not_false_iff]
      exact isPrefix_cons pw.buf (ih res.tail (!res.headD true))

theorem drainQueue_attempts_all (res : List Bool) (q : List PendingWrite)
    (h : (drainQueue res q false).2.2 = false) :
    (drainQueue res q false).1 = q.map PendingWrite.buf := by
  induction q generalizing res with
  | nil => simp [drainQueue]
  | cons pw rest ih =>
    simp only [drainQueue, Bool.false_eq_true, if_neg, not_false_iff] at h ⊢
    rcases hok : res.headD true with _ | _
    · rw [hok, Bool.not_false] at h
      rw [drainQueue_err_mono] at h
      exact Bool.noConfusion h
    · rw [hok, Bool.not_true] at h
      rw [Bool.not_true, ih res.tail h]
      simp

theorem map_pw_releaseOf (q : List PendingWrite) :
    (q.map releaseOf).map ReleaseAction.pw = q := by
  induction q with
  | nil => simp
  | cons p rest ih => simp [pw_releaseOf, ih]

theorem isPrefix_append_left {α : Type} (b : List α) {x y : List α} (h : x <+: y) :
    b ++ x <+: b ++ y := by
  obtain ⟨t, ht⟩ := h
  exact ⟨t, by rw [List.append_assoc, ht]⟩

theorem isPrefix_extend {α : Type} {x y : List α} (z : List α) (h : x <+: y) :
    x <+: y ++ z := by
  obtain ⟨t, ht⟩ := h
  exact ⟨t ++ z, by rw [← List.append_assoc, ht]⟩

/-! ## Engine invariant -/

theorem engineInv_init : EngineInv initEngine := by
  refine ⟨rfl, ⟨[], rfl⟩, fun _ => rfl, ?_, ?_⟩ <;> simp [initEngine]

theorem engineInv_step {c c' : EngineState} (hstep : EngineStep c c') (ih : EngineInv c) :
    EngineInv c' := by
  obtain ⟨h1, h2, h3, h4, h5⟩ := ih
  cases hstep with
  | enqueue buf w c' pw h =>
    unfold preparePendingWrite at h
    split at h
    · exact Except.noConfusion h
    · rename_i hdone
      injection h with hpair
      rw [Prod.mk.injEq] at hpair
      obtain ⟨hc, hpw⟩ := hpair
      subst hc
      refine ⟨?_, h2, h3, h4, ?_⟩
      · show List.map ReleaseAction.pw c.released ++
            (c.writerQueue ++ [acquirePendingWrite buf w]) = c.accepted ++ [acquirePendingWrite buf w]
        rw [← List.append_assoc, h1]
      · intro hex hne
        rcases h4 hex with hd | he
        · exact absurd hd hdone
        · rw [hne] at he
          exact Bool.noConfusion he
  | drain res flushOk halive herr hq =>
    simp only [drainStep]
    rw [herr]
    refine ⟨?_, ?_, ?_, ?_, ?_⟩
    · dsimp only
      rw [drainQueue_releases, List.map_append, map_pw_releaseOf, List.append_nil]
      exact h1
    · dsimp only
      rw [drainQueue_releases, List.map_append, map_pw_releaseOf, List.map_append, h3 herr]
      exact isPrefix_append_left _ (drainQueue_attempts_front res c.writerQueue false)
    · intro he
      dsimp only at he ⊢
      rcases hout : (drainQueue res c.writerQueue false).2.2 with _ | _
      · rw [drainQueue_releases, List.map_append, map_pw_releaseOf, List.map_append, h3 herr,
          drainQueue_attempts_all res c.writerQueue hout]
      · rw [hout] at he
        simp only [if_pos] at he
        exact Bool.noConfusion he
    · intro hex
      exact Or.inr hex
    · intro _ _
      rfl
  | writerExit halive hdone hempty =>
    exact ⟨h1, h2, h3, fun _ => Or.inl hdone, fun _ _ => hempty⟩
  | wakeHandle w =>
    cases w with
    | cancelled => exact ⟨h1, h2, h3, fun _ => Or.inl rfl, h5⟩
    | writerErrored => exact ⟨h1, h2, h3, h4, h5⟩
    | readerErrored => exact ⟨h1, h2, h3, fun _ => Or.inl rfl, h5⟩
  | clear hexited =>
    unfold clearPendingWrites
    refine ⟨?_, ?_, ?_, h4, fun _ _ => rfl⟩
    · dsimp only
      rw [List.map_append, map_pw_releaseOf, List.append_nil]
      exact h1
    · dsimp only
      rw [List.map_append, map_pw_releaseOf, List.map_append]
      exact isPrefix_extend _ h2
    · intro he
      dsimp only at he ⊢
      rw [h5 hexited he]
      simp only [List.map_nil, List.append_nil]
      exact h3 he

theorem engineInv_reachable {c : EngineState} (h : EngineReachable c) : EngineInv c := by
  induction h with
  | refl => exact engineInv_init
  | tail hab hbc ih => exact engineInv_step hbc ih

/-! ## Claims about the connection engine -/

/-- C1: in every reachable engine state, the sequence of buffers handed to the
stream's write call is a prefix of the sequence of buffers accepted into the
write queue, in arrival order: the write loop drains the atomically swapped-out
queue front to back, so no reordering is ever observed on the wire. -/
theorem engine_wire_fifo (c : EngineState) (h : EngineReachable c) :
    c.wire <+: c.accepted.map PendingWrite.buf := by
  obtain ⟨h1, h2, _, _, _⟩ := engineInv_reachable h
  refine h2.trans ?_
  rw [← h1]
  simp only [List.map_append]
  exact List.prefix_append _ _

theorem engine_wire_fifo_witness :
    (drainStep exEnq [true] true).wire <+:
      ((drainStep exEnq [true] true).accepted.map PendingWrite.buf) :=
  engine_wire_fifo _
    (Relation.ReflTransGen.tail
      (Relation.ReflTransGen.single
        (EngineStep.enqueue initEngine [7] true _ _ rfl))
      (EngineStep.drain _ [true] true rfl rfl (by decide)))

/-- C2 (amended): preparePendingWrite rejects with the shutdown error and
leaves the queue unchanged exactly when the writer-done flag is set, and
otherwise appends exactly one entry and signals the writer; the flag is set by
Handle's external-cancellation and reader-error branches, but the write-error
branch leaves it unset, so calls after a write-error shutdown are still
accepted into the queue. -/
theorem enqueue_shutdown_gate :
    (∀ (c : EngineState) (buf : List Nat) (w : Bool), c.writerDone = true →
        preparePendingWrite c buf w = .error "node is shut down") ∧
    (∀ (c : EngineState) (buf : List Nat) (w : Bool), c.writerDone = false →
        preparePendingWrite c buf w =
          .ok ({ c with
                  writerQueue := c.writerQueue ++ [acquirePendingWrite buf w],
                  signals := c.signals + 1,
                  accepted := c.accepted ++ [acquirePendingWrite buf w] },
               acquirePendingWrite buf w)) ∧
    (∀ c : EngineState, (handleWake .cancelled c).writerDone = true ∧
        (handleWake .readerErrored c).writerDone = true ∧
        handleWake .writerErrored c = c) := by
  refine ⟨?_, ?_, fun c => ⟨rfl, rfl, rfl⟩⟩
  · intro c buf w h
    simp [preparePendingWrite, h]
  · intro c buf w h
    simp [preparePendingWrite, h]

theorem enqueue_shutdown_gate_witness :
    preparePendingWrite { writerDone := true } [3] true = .error "node is shut down" ∧
    preparePendingWrite initEngine [3] false =
      .ok ({ writerQueue := [⟨[3], false⟩], signals := 1, accepted := [⟨[3], false⟩] },
           ⟨[3], false⟩) := by
  obtain ⟨ha, hb, _⟩ := enqueue_shutdown_gate
  exact ⟨ha { writerDone := true } [3] true rfl, hb initEngine [3] false rfl⟩

/-- C2 counterexample: a connection that begins shutting down through a write
error (Handle's writer-error branch) never sets the writer-done flag, so a
Write call made afterwards is accepted into the queue instead of returning the
shutdown error, refuting the claim for the write-error case. -/
theorem enqueue_after_write_error_cx :
    (handleWake HandleWake.writerErrored (drainStep exEnq [false] true)).writerDone = false ∧
    (drainStep exEnq [false] true).writeErr = true ∧
    exceptIsOk (preparePendingWrite
        (handleWake HandleWake.writerErrored (drainStep exEnq [false] true)) [9] true) = true := by
  decide

/-- C3: once the write loop's sticky error is set, a drained queue yields no
further write attempts, yet every drained pendingWrite is still released — the
waiting ones by signalling their waiter, the rest to the pool — in queue
order, and the buffers attempted are always a front segment of the drained
queue. -/
theorem writer_sticky_error_releases :
    (∀ (res : List Bool) (q : List PendingWrite), (drainQueue res q true).1 = []) ∧
    (∀ (res : List Bool) (q : List PendingWrite) (err : Bool),
        (drainQueue res q err).2.1 = q.map releaseOf) ∧
    (∀ (res : List Bool) (q : List PendingWrite) (err : Bool),
        (drainQueue res q err).1 <+: q.map PendingWrite.buf) :=
  ⟨drainQueue_sticky, drainQueue_releases, drainQueue_attempts_front⟩

/-- C4 (amended): no enqueuing caller hangs — once the queue has been drained
(by the write loop or by clearPendingWrites) the release history covers every
accepted pendingWrite, so every blocked Write is unblocked — but the unblocked
Write returns nil (success), not a typed failure; Write returns an error only
when the enqueue itself happens after the writer-done flag is set. -/
theorem write_unblocked_returns_nil :
    (∀ c : EngineState, EngineReachable c → c.writerQueue = [] →
        c.released.map ReleaseAction.pw = c.accepted) ∧
    (∀ (c : EngineState) (buf : List Nat), c.writerDone = false →
        WriteReturn c buf = .ok ()) ∧
    (∀ (c : EngineState) (buf : List Nat), c.writerDone = true →
        WriteReturn c buf = .error "node is shut down") := by
  refine ⟨?_, ?_, ?_⟩
  · intro c h hqe
    obtain ⟨h1, _, _, _, _⟩ := engineInv_reachable h
    rw [← h1, hqe, List.append_nil]
  · intro c buf h
    simp [WriteReturn, preparePendingWrite, h]
  · intro c buf h
    simp [WriteReturn, preparePendingWrite, h]

theorem write_unblocked_returns_nil_witness :
    (clearPendingWrites (drainStep exEnq [false] true)).released.map ReleaseAction.pw =
      (clearPendingWrites (drainStep exEnq [false] true)).accepted ∧
    WriteReturn initEngine [7] = .ok () ∧
    WriteReturn { writerDone := true } [7] = .error "node is shut down" := by
  obtain ⟨ha, hb, hc⟩ := write_unblocked_returns_nil
  refine ⟨ha _ ?_ (by decide), hb initEngine [7] rfl, hc { writerDone := true } [7] rfl⟩
  exact Relation.ReflTransGen.tail
    (Relation.ReflTransGen.tail
      (Relation.ReflTransGen.single (EngineStep.enqueue initEngine [7] true _ _ rfl))
      (EngineStep.drain _ [false] true rfl rfl (by decide)))
    (EngineStep.clear _ (by decide))

/-- C4 counterexample: a concrete run in which the connection becomes unusable
(the only write fails, so the sticky write error is set), the blocked caller
is signalled, and that caller's Write returns ok () — success — rather than
the typed failure the claim requires. -/
theorem blocked_write_success_cx :
    (drainStep exEnq [false] true).writeErr = true ∧
    (drainStep exEnq [false] true).released = [ReleaseAction.signalWaiter exPW] ∧
    WriteReturn initEngine [7] = .ok () :=
  ⟨by decide, by decide, rfl⟩

/-! ## Sequence counter lemmas -/

theorem next_pos (s : Nat) : 1 ≤ next s := by
  by_cases h : (s + 1) % uint32Mod = 0
  · rw [next, if_pos h]
  · rw [next, if_neg h]
    exact Nat.pos_of_ne_zero h

theorem next_lt (s : Nat) : next s < uint32Mod := by
  by_cases h : (s + 1) % uint32Mod = 0
  · rw [next, if_pos h]
    decide
  · rw [next, if_neg h]
    exact Nat.mod_lt _ (by decide)

theorem next_norm (s : Nat) (h1 : 1 ≤ s) (h2 : s < uint32Mod) :
    (next s - 1) % (uint32Mod - 1) = s % (uint32Mod - 1) := by
  have hM : uint32Mod = 4294967296 := rfl
  by_cases h : (s + 1) % uint32Mod = 0
  · have hdvd : uint32Mod ∣ (s + 1) := Nat.dvd_of_mod_eq_zero h
    have hge : uint32Mod ≤ s + 1 := Nat.le_of_dvd (by omega) hdvd
    have hs : s = uint32Mod - 1 := by omega
    rw [next, if_pos h, hs]
    simp [Nat.mod_self]
  · have hlt : s + 1 < uint32Mod := by
      rcases Nat.lt_or_ge (s + 1) uint32Mod with hl | hg
      · exact hl
      · have heq : s + 1 = uint32Mod := by omega
        rw [heq, Nat.mod_self] at h
        exact absurd rfl h
    rw [next, if_neg h, Nat.mod_eq_of_lt hlt]
    simp

theorem next_iter_bounds (s : Nat) (h1 : 1 ≤ s) (h2 : s < uint32Mod) (k : Nat) :
    1 ≤ next^[k] s ∧ next^[k] s < uint32Mod := by
  induction k with
  | zero => exact ⟨h1, h2⟩
  | succ k ih =>
    rw [Function.iterate_succ_apply']
    exact ⟨next_pos _, next_lt _⟩

theorem next_iter_norm (s : Nat) (h1 : 1 ≤ s) (h2 : s < uint32Mod) (k : Nat) :
    (next^[k] s - 1) % (uint32Mod - 1) = (s - 1 + k) % (uint32Mod - 1) := by
  induction k with
  | zero => simp
  | succ k ih =>
    rw [Function.iterate_succ_apply']
    obtain ⟨hb1, hb2⟩ := next_iter_bounds s h1 h2 k
    rw [next_norm _ hb1 hb2]
    have ht : next^[k] s = (next^[k] s - 1) + 1 := (Nat.succ_pred_eq_of_pos hb1).symm
    conv_lhs => rw [ht]
    rw [Nat.add_mod, ih, ← Nat.add_mod, Nat.add_assoc]

theorem next_iter_inj (s i j : Nat) (hs : s < uint32Mod) (hi : 1 ≤ i) (hij : i < j)
    (hj : j ≤ uint32Mod - 1) : next^[i] s ≠ next^[j] s := by
  intro heq
  have hM : uint32Mod = 4294967296 := rfl
  obtain ⟨i', rfl⟩ : ∃ i', i = i' + 1 := ⟨i - 1, by omega⟩
  obtain ⟨j', rfl⟩ : ∃ j', j = j' + 1 := ⟨j - 1, by omega⟩
  rw [Function.iterate_succ_apply, Function.iterate_succ_apply] at heq
  have hb1 : 1 ≤ next s := next_pos s
  have hb2 : next s < uint32Mod := next_lt s
  have h1 := next_iter_norm (next s) hb1 hb2 i'
  have h2 := next_iter_norm (next s) hb1 hb2 j'
  rw [heq] at h1
  have hmod : (next s - 1 + i') % (uint32Mod - 1) = (next s - 1 + j') % (uint32Mod - 1) :=
    h1.symm.trans h2
  have hmm : Nat.ModEq (uint32Mod - 1) (next s - 1 + i') (next s - 1 + j') := hmod
  have hcancel : Nat.ModEq (uint32Mod - 1) i' j' := hmm.add_left_cancel' (next s - 1)
  have hc : i' % (uint32Mod - 1) = j' % (uint32Mod - 1) := hcancel
  rw [Nat.mod_eq_of_lt (by omega), Nat.mod_eq_of_lt (by omega)] at hc
  omega

/-- C5: the sequence-number generator never returns 0 — from counter state s
it returns (s+1) mod 2^32 except that a wrapped-to-0 increment returns 1 — and
from any uint32 counter state the outputs of up to 2^32 − 1 consecutive calls
are pairwise distinct (and nonzero), so wraparound never reuses 0. -/
theorem seq_nonzero_distinct :
    (∀ s : Nat, next s ≠ 0) ∧
    (∀ s : Nat, (s + 1) % uint32Mod ≠ 0 → next s = (s + 1) % uint32Mod) ∧
    (∀ s : Nat, (s + 1) % uint32Mod = 0 → next s = 1) ∧
    (∀ s i j : Nat, s < uint32Mod → 1 ≤ i → i < j → j ≤ uint32Mod - 1 →
        next^[i] s ≠ next^[j] s) := by
  refine ⟨?_, ?_, ?_, next_iter_inj⟩
  · intro s
    have := next_pos s
    omega
  · intro s h
    rw [next, if_neg h]
  · intro s h
    rw [next, if_pos h]

theorem seq_nonzero_distinct_witness :
    next 5 ≠ 0 ∧ next 5 = (5 + 1) % uint32Mod ∧ next 4294967295 = 1 ∧
      next^[1] 0 ≠ next^[2] 0 := by
  obtain ⟨h0, h2, h3, h4⟩ := seq_nonzero_distinct
  exact ⟨h0 5, h2 5 (by decide), h3 4294967295 (by decide),
    h4 0 1 2 (by decide) (by decide) (by decide) (by decide)⟩

/-! ## Server admission invariant -/

theorem serverAvailable_true {cap : Nat} {dc : Bool} {o o' : Nat}
    (h : ServerAvailable cap dc o (true, o')) : o < cap ∧ o' = o + 1 := by
  cases h with
  | sendSem hlt => exact ⟨hlt, rfl⟩

theorem serverInv_init (cap : Nat) : ServerInv cap {} :=
  ⟨rfl, Nat.zero_le _⟩

theorem serverInv_step {cap : Nat} {s s' : ServerState}
    (h : ServerStep cap s s') (ih : ServerInv cap s) : ServerInv cap s' := by
  obtain ⟨h1, h2⟩ := ih
  cases h with
  | admitConn o2 hav =>
    obtain ⟨hlt, rfl⟩ := serverAvailable_true hav
    constructor
    · show s.occupied + 1 = s.active + 1
      omega
    · show s.active + 1 ≤ cap
      omega
  | reject hav => exact ⟨h1, h2⟩
  | clientExit outcome hact =>
    constructor
    · show s.occupied - 1 = s.active - 1
      omega
    · show s.active - 1 ≤ cap
      omega
  | shutdownSignal hdc => exact ⟨h1, h2⟩

theorem serverInv_reachable {cap : Nat} {s : ServerState}
    (h : ServerReachable cap s) : ServerInv cap s := by
  induction h with
  | refl => exact serverInv_init cap
  | tail hab hbc ih => exact serverInv_step hbc ih

/-- C6: serverAvailable reports success only by reserving one of the cap
admission slots (so it requires free capacity and increments the occupancy by
one), and in every reachable server state the number of concurrently handled
connections equals the occupancy and never exceeds cap; a connection that
fails to reserve is rejected without affecting the handled count, and every
task exit releases its slot regardless of outcome (the clientExit step of
ServerStep). -/
theorem admission_bound :
    (∀ (cap : Nat) (dc : Bool) (o o' : Nat),
        ServerAvailable cap dc o (true, o') → o < cap ∧ o' = o + 1) ∧
    (∀ (cap : Nat) (s : ServerState), ServerReachable cap s →
        s.active ≤ cap ∧ s.occupied = s.active) := by
  refine ⟨fun cap dc o o' h => serverAvailable_true h, fun cap s h => ?_⟩
  obtain ⟨h1, h2⟩ := serverInv_reachable h
  exact ⟨h2, h1⟩

theorem admission_bound_witness :
    ((0 : Nat) < 1 ∧ (1 : Nat) = 0 + 1) ∧
    (({ occupied := 1, active := 1 } : ServerState).active ≤ 1 ∧
      ({ occupied := 1, active := 1 } : ServerState).occupied =
        ({ occupied := 1, active := 1 } : ServerState).active) := by
  obtain ⟨ha, hb⟩ := admission_bound
  refine ⟨ha 1 false 0 1 (ServerAvailable.sendSem 0 (by decide)), ?_⟩
  exact hb 1 { occupied := 1, active := 1 }
    (Relation.ReflTransGen.single (ServerStep.admitConn {} 1 (ServerAvailable.sendSem 0 (by decide))))

/-! ## Serve accept-error handling -/

/-- C7: Serve's accept-error handling classifies errors exactly as the claim
states: io.EOF and the closed-listener message return nil; an error that is
not a net.OpError, or a non-temporary one, is returned as fatal; a temporary
net.OpError waits 100 ms and then retries, unless the shutdown signal arrives
during the wait, in which case Serve returns nil. -/
theorem serve_accept_error_classification :
    (∀ d : Bool, serveOnAcceptError .eof d = .exitOk) ∧
    (∀ t d : Bool,
        serveOnAcceptError (.netOp "use of closed network connection" t) d = .exitOk) ∧
    (∀ (msg : String) (d : Bool), msg ≠ "use of closed network connection" →
        serveOnAcceptError (.netOp msg false) d = .exitErr) ∧
    (∀ msg : String, msg ≠ "use of closed network connection" →
        serveOnAcceptError (.netOp msg true) false = .retryAccept) ∧
    (∀ msg : String, msg ≠ "use of closed network connection" →
        serveOnAcceptError (.netOp msg true) true = .exitOk) ∧
    (∀ d : Bool, serveOnAcceptError .other d = .exitErr) ∧
    serveBackoffMillis = 100 := by
  refine ⟨fun d => rfl, fun t d => ?_, fun msg d h => ?_, fun msg h => ?_, fun msg h => ?_,
    fun d => rfl, rfl⟩
  · simp [serveOnAcceptError]
  · simp [serveOnAcceptError, h]
  · simp [serveOnAcceptError, h, wait]
  · simp [serveOnAcceptError, h, wait]

theorem serve_accept_error_classification_witness :
    serveOnAcceptError .eof false = .exitOk ∧
    serveOnAcceptError (.netOp "use of closed network connection" false) true = .exitOk ∧
    serveOnAcceptError (.netOp "connection reset" false) false = .exitErr ∧
    serveOnAcceptError (.netOp "timeout" true) false = .retryAccept ∧
    serveOnAcceptError (.netOp "timeout" true) true = .exitOk ∧
    serveOnAcceptError .other true = .exitErr := by
  obtain ⟨h1, h2, h3, h4, h5, h6, _⟩ := serve_accept_error_classification
  exact ⟨h1 false, h2 false true, h3 "connection reset" false (by decide),
    h4 "timeout" (by decide), h5 "timeout" (by decide), h6 true⟩

/-! ## Shutdown -/

/-- C8 (amended): Shutdown signals the shared cancellation channel and its
wg.Wait completes exactly when every admitted task has exited; but it is not
idempotent — a second call closes the already-closed done channel and panics
with "close of closed channel". -/
theorem shutdown_behavior :
    (∀ s : ServerState, s.doneClosed = false → s.active = 0 →
        Shutdown s = .ok ({ s with doneClosed := true }, true)) ∧
    (∀ s : ServerState, s.doneClosed = false → 0 < s.active →
        Shutdown s = .ok ({ s with doneClosed := true }, false)) ∧
    (∀ s : ServerState, s.doneClosed = true →
        Shutdown s = .error "close of closed channel") := by
  refine ⟨?_, ?_, ?_⟩
  · intro s hdc hact
    simp [Shutdown, closeChannel, wgWait, hdc, hact]
  · intro s hdc hact
    simp [Shutdown, closeChannel, wgWait, hdc, Nat.pos_iff_ne_zero.mp hact]
  · intro s hdc
    simp [Shutdown, closeChannel, hdc]

theorem shutdown_behavior_witness :
    Shutdown {} = .ok ({ doneClosed := true }, true) ∧
    Shutdown { active := 2 } = .ok ({ active := 2, doneClosed := true }, false) ∧
    Shutdown { doneClosed := true } = .error "close of closed channel" := by
  obtain ⟨h1, h2, h3⟩ := shutdown_behavior
  exact ⟨h1 {} rfl rfl, h2 { active := 2 } rfl (by decide), h3 { doneClosed := true } rfl⟩

/-- C8 counterexample: calling Shutdown twice is not harmless — the first call
succeeds, but a second call on the resulting state closes the already-closed
done channel and panics, refuting idempotence. -/
theorem shutdown_twice_panics_cx :
    Shutdown {} = .ok ({ doneClosed := true }, true) ∧
    Shutdown { doneClosed := true } = .error "close of closed channel" := by
  exact ⟨rfl, rfl⟩

/-! ## Configuration defaults -/

/-- C9 (amended): every configuration option except HandshakeTimeout receives
its default when unset or non-positive; HandshakeTimeout receives the default
only when negative — a zero (unset) HandshakeTimeout stays 0 and disables the
handshake deadline rather than arming the default one. -/
theorem config_default_gates :
    (∀ c : ServerConfig, c.maxConns ≤ 0 → getMaxConns c = DefaultMaxServerConns) ∧
    (∀ c : ServerConfig, c.maxConnWaitTimeout ≤ 0 →
        getMaxConnWaitTimeout c = DefaultMaxConnWaitTimeout) ∧
    (∀ cfg dflt : Int, cfg ≤ 0 → getMaxClientConns cfg dflt = dflt) ∧
    (∀ cfg dflt : Int, cfg ≤ 0 → getReadBufferSize cfg dflt = dflt) ∧
    (∀ cfg dflt : Int, cfg ≤ 0 → getWriteBufferSize cfg dflt = dflt) ∧
    (∀ cfg dflt : Int, cfg ≤ 0 → getReadTimeout cfg dflt = dflt) ∧
    (∀ cfg dflt : Int, cfg ≤ 0 → getWriteTimeout cfg dflt = dflt) ∧
    (∀ c : ServerConfig, c.handshakeTimeout < 0 →
        getHandshakeTimeout c = DefaultHandshakeTimeout) ∧
    (∀ c : ServerConfig, 0 ≤ c.handshakeTimeout →
        getHandshakeTimeout c = c.handshakeTimeout) ∧
    armsHandshakeDeadline 0 = false := by
  refine ⟨?_, ?_, ?_, ?_, ?_, ?_, ?_, ?_, ?_, by decide⟩
  · intro c h
    rw [getMaxConns, if_pos h]
  · intro c h
    rw [getMaxConnWaitTimeout, if_pos h]
  · intro cfg dflt h
    rw [getMaxClientConns, if_pos h]
  · intro cfg dflt h
    rw [getReadBufferSize, if_pos h]
  · intro cfg dflt h
    rw [getWriteBufferSize, if_pos h]
  · intro cfg dflt h
    rw [getReadTimeout, if_pos h]
  · intro cfg dflt h
    rw [getWriteTimeout, if_pos h]
  · intro c h
    rw [getHandshakeTimeout, if_pos h]
  · intro c h
    rw [getHandshakeTimeout, if_neg (not_lt.mpr h)]

theorem config_default_gates_witness :
    getMaxConns {} = DefaultMaxServerConns ∧
    getMaxConnWaitTimeout {} = DefaultMaxConnWaitTimeout ∧
    getMaxClientConns 0 9 = 9 ∧
    getReadBufferSize 0 4096 = 4096 ∧
    getWriteBufferSize (-1) 4096 = 4096 ∧
    getReadTimeout 0 8 = 8 ∧
    getWriteTimeout 0 8 = 8 ∧
    getHandshakeTimeout { handshakeTimeout := -1 } = DefaultHandshakeTimeout ∧
    getHandshakeTimeout {} = 0 := by
  obtain ⟨h1, h2, h3, h4, h5, h6, h7, h8, h9, _⟩ := config_default_gates
  exact ⟨h1 {} (by decide), h2 {} (by decide), h3 0 9 (by decide), h4 0 4096 (by decide),
    h5 (-1) 4096 (by decide), h6 0 8 (by decide), h7 0 8 (by decide),
    h8 { handshakeTimeout := -1 } (by decide), h9 {} (by decide)⟩

/-- C9 counterexample: a HandshakeTimeout left at its zero value is
non-positive, yet getHandshakeTimeout returns 0 rather than the documented
default, and client() then arms no handshake deadline at all. -/
theorem handshake_timeout_zero_cx :
    getHandshakeTimeout {} = 0 ∧
    DefaultHandshakeTimeout ≠ 0 ∧
    armsHandshakeDeadline (getHandshakeTimeout {}) = false := by
  refine ⟨by decide, by decide, by decide⟩

/-! ## Read loop buffer shrinking -/

theorem readLoopLens_head (len : Nat) (rs : List Nat) :
    (readLoopLens len rs).head? = some len := by
  cases rs <;> rfl

theorem readLoopLens_zero (len : Nat) (rs : List Nat) :
    (readLoopLens len rs)[0]? = some len := by
  cases rs <;> simp [readLoopLens]

/-- C10: in readLoop the buffer passed to read i+1 has length equal to the
byte count returned by read i (the buffer is re-sliced to buf[:n] after every
read), the successive buffer lengths are non-increasing, and the first read
uses the configured size — so the per-iteration read capacity is pinned by the
first read's count rather than staying at the configured ReadBufferSize. -/
theorem read_buffer_shrinks :
    (∀ (len : Nat) (rs : List Nat), (readLoopLens len rs).head? = some len) ∧
    (∀ (len : Nat) (rs : List Nat),
        List.Chain' (fun a b => b ≤ a) (readLoopLens len rs)) ∧
    (∀ (len : Nat) (rs : List Nat) (i : Nat),
        (readLoopLens len rs)[i + 1]? =
          (rs[i]?.bind fun r => (readLoopLens len rs)[i]?.map fun l => min r l)) := by
  refine ⟨readLoopLens_head, ?_, ?_⟩
  · intro len rs
    induction rs generalizing len with
    | nil => simp [readLoopLens]
    | cons r rs' ih =>
      show List.Chain' _ (len :: readLoopLens (min r len) rs')
      rw [List.chain'_cons']
      refine ⟨?_, ih (min r len)⟩
      intro b hb
      rw [readLoopLens_head] at hb
      cases hb
      exact min_le_right r len
  · intro len rs
    induction rs generalizing len with
    | nil =>
      intro i
      simp [readLoopLens]
    | cons r rs' ih =>
      intro i
      cases i with
      | zero =>
        show (len :: readLoopLens (min r len) rs')[1]? = _
        simp [readLoopLens, readLoopLens_zero]
      | succ k =>
        show (len :: readLoopLens (min r len) rs')[k + 2]? = _
        rw [List.getElem?_cons_succ]
        have := ih (min r len) k
        rw [this]
        simp [readLoopLens]

end Monte
